import Mathlib

/-!
Shallow embedding of the chat session engine of this repository:

* `ChatService` (file `aideControlsInputEditorContrib.ts`): session table,
  pending-request table, `sendRequest`, the async send lifecycle, result
  classification, persistence (`saveState`, `deserializeChats`) and
  `hasSessions`.
* `ChatEditSessionService` and `LiveStrategy` (file `csChatEdits.ts`):
  `sendEditRequest`, per-document text-model checkpoints, `undoModelUntil`,
  `cancel`, and the decoration bookkeeping of `_makeChanges`.

The host runtime is single threaded and event driven; asynchronous code runs
synchronously between `await` points.  Each embedded operation below is the
state transformation performed by one such synchronous stretch, and the
interleaving of stretches (agent settling, cancellation) is made explicit as
parameters of the lifecycle functions.
-/

/-! ## JavaScript primitives -/

/-- Characters removed by the JavaScript `String.prototype.trim` (WhiteSpace
and LineTerminator code points; the common ones are modelled). -/
def isJsWhitespace (c : Char) : Bool :=
  c == ' ' || c == '\t' || c == '\n' || c == '\r' || c == '\x0B' ||
  c == '\x0C' || c == ' ' || c == '﻿'

/-- JavaScript `String.prototype.trim` on an explicit character list. -/
def jsTrimList (l : List Char) : List Char :=
  ((l.dropWhile isJsWhitespace).reverse.dropWhile isJsWhitespace).reverse

/-- JavaScript `String.prototype.trim`. -/
def jsTrim (s : String) : String :=
  String.mk (jsTrimList s.toList)

/-- JavaScript truthiness of an optional boolean field (`undefined` is falsy). -/
def jsTruthyOptBool : Option Bool → Bool
  | some b => b
  | none => false

/-- JavaScript truthiness of an object value.  Per ECMAScript ToBoolean every
object — in particular every array, also the empty one — converts to `true`. -/
def jsObjectTruthy {α : Type} (_ : List α) : Bool :=
  true

/-! ## ChatService data model -/

/-- `AideChatAgentLocation`. -/
inductive AgentLocation
  | panel
  | terminal
  | notebook
  | editor
deriving DecidableEq, Repr

/-- `IAideChatAgentResult.errorDetails`. -/
structure ErrorDetails where
  message : String
  responseIsIncomplete : Option Bool
  responseIsFiltered : Option Bool
deriving DecidableEq, Repr

/-- `IAideChatAgentResult` (the parts the dispatcher inspects). -/
structure AgentResult where
  errorDetails : Option ErrorDetails
deriving DecidableEq, Repr

/-- Telemetry/result classification values computed in `_sendRequestAsync`. -/
inductive ResultKind
  | success
  | error
  | errorWithOutput
  | filtered
  | cancelled
deriving DecidableEq, Repr

/-- Result classification of `_sendRequestAsync` on the non-cancelled path:
`rawResult.errorDetails?.responseIsFiltered ? 'filtered' :
rawResult.errorDetails && gotProgress ? 'errorWithOutput' :
rawResult.errorDetails ? 'error' : 'success'`. -/
def classifyResult (r : AgentResult) (gotProgress : Bool) : ResultKind :=
  match r.errorDetails with
  | some ed =>
      if jsTruthyOptBool ed.responseIsFiltered then .filtered
      else if gotProgress then .errorWithOutput
      else .error
  | none => .success

/-- One progress fragment (`IAideChatProgress`); the dispatcher treats it as
an opaque tagged value that it appends to the response. -/
structure Fragment where
  kind : String
  content : String
deriving DecidableEq, Repr

/-- `ChatRequestModel` together with its attached response state. -/
structure ChatRequestModel where
  id : String
  message : String
  response : List Fragment
  result : Option AgentResult
  isComplete : Bool
  isCanceled : Bool
deriving DecidableEq, Repr

/-- `ChatModel`: one session held in the `_sessionModels` table. -/
structure ChatModel where
  sessionId : String
  initialized : Bool
  requests : List ChatRequestModel
  initialLocation : AgentLocation
  creationDate : Option Nat
deriving DecidableEq, Repr

/-- One normalized response entry of a persisted request: either a revived
markdown string or an already structured progress part left unchanged. -/
inductive RespItem
  | markdown (text : String)
  | structured (kind : String)
deriving DecidableEq, Repr

/-- Raw persisted response entry before normalization. -/
inductive RawRespItem
  | str (s : String)
  | structured (kind : String)
deriving DecidableEq, Repr

/-- Shape of the `response` field of a raw persisted request: a plain string
(legacy encoding) or an array of entries. -/
inductive RawResponseField
  | single (s : String)
  | items (l : List RawRespItem)
deriving DecidableEq, Repr

/-- Raw persisted request as found in the storage blob. -/
structure RawRequest where
  response : RawResponseField
deriving DecidableEq, Repr

/-- Raw persisted session.  `requests = none` models malformed data whose
`requests` field is not an iterable array: the `for (const request of
session.requests)` loop in `deserializeChats` throws on it. -/
structure RawChat where
  sessionId : String
  requests : Option (List RawRequest)
  creationDate : Option Nat
deriving DecidableEq, Repr

/-- Persisted session after `deserializeChats` normalization
(`ISerializableChatData`); each request keeps its normalized response. -/
structure SerializedChat where
  sessionId : String
  requests : List (List RespItem)
  creationDate : Option Nat
deriving DecidableEq, Repr

/-- Normalization of one raw response entry: serialized markdown strings are
revived into `MarkdownString`s, structured parts pass through. -/
def normalizeRespItem : RawRespItem → RespItem
  | .str s => .markdown s
  | .structured k => .structured k

/-- Normalization of a raw `response` field: a legacy plain string becomes a
one-element markdown array, an array maps each entry. -/
def normalizeResponse : RawResponseField → List RespItem
  | .single s => [.markdown s]
  | .items l => l.map normalizeRespItem

/-- Normalization of one well-formed raw session (the body of the reduce in
`deserializeChats`). -/
def normalizeChat (c : RawChat) (reqs : List RawRequest) : SerializedChat :=
  { sessionId := c.sessionId
    requests := reqs.map (fun r => normalizeResponse r.response)
    creationDate := c.creationDate }

/-- Input of `deserializeChats`: the storage blob either fails `JSON.parse`,
or revives to a non-array value (the explicit `throw new Error` path), or
revives to an array of raw sessions. -/
inductive PersistedInput
  | parseFailure
  | nonArray
  | sessions (xs : List RawChat)
deriving DecidableEq, Repr

/-- JavaScript object-as-map assignment `acc[key] = value`. -/
def mapSet (m : List (String × SerializedChat)) (k : String) (v : SerializedChat) :
    List (String × SerializedChat) :=
  (k, v) :: m.filter (fun p => p.1 != k)

/-- `ChatService.deserializeChats`.  The whole parse-and-reduce is wrapped in
one `try`/`catch` that returns the empty table: a parse failure, a non-array
value, or a single session whose `requests` field cannot be iterated all land
in the same `catch`, so one malformed session discards every session. -/
def deserializeChats : PersistedInput → List (String × SerializedChat)
  | .parseFailure => []
  | .nonArray => []
  | .sessions xs =>
      if xs.all (fun c => c.requests.isSome) then
        xs.foldl
          (fun acc c =>
            match c.requests with
            | some reqs => mapSet acc c.sessionId (normalizeChat c reqs)
            | none => acc)
          []
      else []

/-- State of `ChatService`: the live session table, the pending-request table
(represented by its key set) and the persisted-session table. -/
structure ChatServiceState where
  sessionModels : List ChatModel
  pendingRequests : List String
  persistedSessions : List (String × SerializedChat)
deriving Repr

/-- `this._sessionModels.get(sessionId)`. -/
def lookupSession (st : ChatServiceState) (sid : String) : Option ChatModel :=
  st.sessionModels.find? (fun m => m.sessionId == sid)

/-- `this._sessionModels.has(sessionId)`. -/
def sessionModelsHas (st : ChatServiceState) (sid : String) : Bool :=
  st.sessionModels.any (fun m => m.sessionId == sid)

/-- `Map.set` on a key set: any existing entry for the key is replaced. -/
def pendingSet (p : List String) (s : String) : List String :=
  s :: p.filter (fun x => x != s)

/-- `DisposableMap.deleteAndDispose` on a key set; the boolean records whether
an entry was actually present and removed. -/
def deleteAndDispose (p : List String) (s : String) : List String × Bool :=
  if s ∈ p then (p.filter (fun x => x != s), true) else (p, false)

/-- Possible outcomes of the synchronous part of `ChatService.sendRequest`. -/
inductive SendOutcome
  | rejectedBlank
  | unknownSession
  | rejectedPending
  | accepted
deriving DecidableEq, Repr

/-- Synchronous part of `ChatService.sendRequest`, up to and including the
`_pendingRequests.set` inside `_sendRequestAsync` (everything from the
pending-request check to that `set` runs without an intervening `await`):
reject blank text, throw on an unknown session (`unknownSession`), reject a
session that already has a pending request, otherwise register the pending
operation. -/
def sendRequest (st : ChatServiceState) (sessionId request : String) :
    ChatServiceState × SendOutcome :=
  if jsTrim request = "" then (st, .rejectedBlank)
  else
    match lookupSession st sessionId with
    | none => (st, .unknownSession)
    | some _ =>
        if sessionId ∈ st.pendingRequests then (st, .rejectedPending)
        else ({ st with pendingRequests := pendingSet st.pendingRequests sessionId },
              .accepted)

/-- How the agent promise of one send settles: it resolves with a raw result
(possibly `null`), or it rejects / the agent throws. -/
inductive AgentOutcome
  | completes (fragments : List Fragment) (rawResult : Option AgentResult)
  | throws (message : String)
deriving DecidableEq, Repr

/-- When `cancelCurrentRequestForSession` runs relative to the settling of the
send's internal promise. -/
inductive CancelTiming
  | noCancel
  | beforeSettle
  | afterSettle
deriving DecidableEq, Repr

/-- Effect of one accepted send on the pending-request key set, as the pair
(final key set, number of times an entry for the session was actually
removed).  The sequence of map operations is: `_pendingRequests.set` at
acceptance; `deleteAndDispose` inside `cancelCurrentRequestForSession` if the
user cancels; `deleteAndDispose` in the `rawResponsePromise.finally` when the
internal promise settles.  The `finally` runs whether the promise resolves or
rejects, so the agent outcome does not influence the map effects — it is
threaded through only to record that fact. -/
def sendLifecycle (p0 : List String) (s : String) (c : CancelTiming)
    (_outcome : AgentOutcome) : List String × Nat :=
  let p1 := pendingSet p0 s
  match c with
  | .noCancel =>
      let d := deleteAndDispose p1 s
      (d.1, if d.2 then 1 else 0)
  | .beforeSettle =>
      let d1 := deleteAndDispose p1 s
      let d2 := deleteAndDispose d1.1 s
      (d2.1, (if d1.2 then 1 else 0) + (if d2.2 then 1 else 0))
  | .afterSettle =>
      let d1 := deleteAndDispose p1 s
      let d2 := deleteAndDispose d1.1 s
      (d2.1, (if d1.2 then 1 else 0) + (if d2.2 then 1 else 0))

/-- Message substituted in `_sendRequestAsync` when the provider resolves with
a null response. -/
def emptyResponseMessage : String :=
  "Provider returned null response"

/-- Completion step of `_sendRequestAsync` on the non-cancelled resolve path:
a null raw result is replaced by a synthesized error result, the result
classification is computed, the result is attached to the response
(`model.setResponse`) and the response is marked complete
(`model.completeResponse`). -/
def settleOutcome (req : ChatRequestModel) (rawResult : Option AgentResult)
    (gotProgress : Bool) : ChatRequestModel × ResultKind :=
  let r :=
    match rawResult with
    | none =>
        { errorDetails :=
            some { message := emptyResponseMessage
                   responseIsIncomplete := none
                   responseIsFiltered := none } }
    | some r => r
  ({ req with result := some r, isComplete := true }, classifyResult r gotProgress)

/-! ## Text models and the live edit strategy (`csChatEdits.ts`) -/

/-- One state of a live document: its text and its alternative version id.
The editor assigns a fresh, strictly increasing alternative version id to
every edit operation, and undo restores the id of the restored state. -/
structure DocState where
  text : String
  altId : Nat
deriving DecidableEq, Repr

/-- The live text model (`ITextModel`) as the edit pipeline sees it:
current state, undo stack (most recent first) and disposal flag. -/
structure TModel where
  current : DocState
  undoStack : List DocState
  disposed : Bool
deriving DecidableEq, Repr

/-- `model.canUndo()`. -/
def TModel.canUndo (m : TModel) : Bool :=
  !m.undoStack.isEmpty

/-- `model.undo()`: restore the most recent undo-stack entry, if any. -/
def TModel.undo (m : TModel) : TModel :=
  match m.undoStack with
  | [] => m
  | d :: rest => { m with current := d, undoStack := rest }

/-- `model.getAlternativeVersionId()`. -/
def TModel.getAlternativeVersionId (m : TModel) : Nat :=
  m.current.altId

/-- One applied edit operation: the previous state is pushed on the undo
stack and the document moves to the new state. -/
def TModel.executeEdits (m : TModel) (d : DocState) : TModel :=
  { m with current := d, undoStack := m.current :: m.undoStack }

/-- `undoModelUntil` (`csChatEdits.ts`): repeatedly call `model.undo()` while
`targetAltVersion < model.getAlternativeVersionId()` and `model.canUndo()`. -/
def undoModelUntil (m : TModel) (targetAltVersion : Nat) : TModel :=
  if h : targetAltVersion < m.getAlternativeVersionId ∧ m.canUndo = true then
    undoModelUntil m.undo targetAltVersion
  else m
termination_by m.undoStack.length
decreasing_by
  rcases m with ⟨c, stack, d⟩
  cases stack with
  | nil => simp [TModel.canUndo] at h
  | cons x xs => simp [TModel.undo]

/-- `ICSChatCodeblockTextModels`: per-document pair of the snapshot taken at
first touch and the live model, with the alternative version id recorded at
first touch.  `textModelNSnapshotAltVersion` is initialized to `undefined`
and never assigned in this file. -/
structure CodeblockTextModels where
  textModel0 : String
  textModelN : TModel
  textModelNAltVersion : Nat
  textModelNSnapshotAltVersion : Option Nat
deriving Repr

/-- Inclusive line range touched by one edit, as produced by
`LineRange.fromRange` on the reported edit operation ranges. -/
structure LRange where
  startLine : Nat
  endLine : Nat
deriving DecidableEq, Repr

/-- Lines enumerated by `LineRange.forEach` for one touched range. -/
def linesOfRange (r : LRange) : List Nat :=
  (List.range (r.endLine + 1 - r.startLine)).map (r.startLine + ·)

/-- JavaScript `Set.add`: insertion-ordered, first occurrence kept. -/
def jsSetAdd (s : List Nat) (x : Nat) : List Nat :=
  if x ∈ s then s else s ++ [x]

/-- The `newLines` set built by the progress callback of
`LiveStrategy._makeChanges` before existing decorations are removed: every
line of every reported edit range, deduplicated. -/
def collectEditLines (edits : List LRange) : List Nat :=
  edits.foldl (fun s r => (linesOfRange r).foldl jsSetAdd s) []

/-- The decoration delta of `LiveStrategy._makeChanges`: the freshly touched
lines minus every line already covered by an existing decoration
(`newLines.delete(line)` for each line of each existing decoration range). -/
def deltaNewLines (edits : List LRange) (existingLines : List Nat) : List Nat :=
  (collectEditLines edits).filter (fun x => !existingLines.contains x)

/-- `this._progressiveEditingDecorations.append(newDecorations)`: one
whole-line decoration per line of the delta is appended to the collection. -/
def appendEditDecorations (decos : List Nat) (edits : List LRange) : List Nat :=
  decos ++ deltaNewLines edits decos

/-- State of one `LiveStrategy`: its per-document text models, the edit
counter and the lines currently carrying a progressive-editing decoration
(each decoration is the whole-line range of exactly one line). -/
structure LiveStrategyState where
  models : CodeblockTextModels
  editCount : Nat
  decorationLines : List Nat
deriving Repr

/-- Decoration and counter effect of one batch landing in
`LiveStrategy._makeChanges`: the edit counter is incremented and the
decoration delta of the reported edit ranges is appended. -/
def makeChangesDecorations (st : LiveStrategyState) (edits : List LRange) :
    LiveStrategyState :=
  { st with
      editCount := st.editCount + 1
      decorationLines := appendEditDecorations st.decorationLines edits }

/-- `LiveStrategy.cancel`: clear the decorations (`_resetDiff`), return if
the live model is disposed, otherwise undo the live model back to
`textModelNSnapshotAltVersion ?? textModelNAltVersion`. -/
def LiveStrategy.cancel (st : LiveStrategyState) : LiveStrategyState :=
  let st := { st with decorationLines := [] }
  if st.models.textModelN.disposed then st
  else
    let targetAltVersion :=
      st.models.textModelNSnapshotAltVersion.getD st.models.textModelNAltVersion
    { st with
        models :=
          { st.models with
              textModelN := undoModelUntil st.models.textModelN targetAltVersion } }

/-! ## ChatEditSessionService -/

/-- One entry of `ICSChatAgentEditRequest.context`. -/
structure EditContext where
  codeBlockIndex : Int
deriving DecidableEq, Repr, Inhabited

/-- `ICSChatAgentEditRequest` (the part `sendEditRequest` inspects). -/
structure EditRequest where
  context : List EditContext
deriving DecidableEq, Repr

/-- `IChatResponseViewModel` identity as used by `sendEditRequest`. -/
structure ResponseVM where
  id : String
  sessionId : String
deriving DecidableEq, Repr

/-- State of `ChatEditSessionService`: context keys, active response, the
pending edit-request table (key set) and the per-document strategy and
text-model tables keyed by document URI. -/
structure EditSessionState where
  activeResponse : Option String
  editResponseIdInProgress : String
  editCodeblockInProgress : Int
  pendingRequests : List String
  editStrategies : List (String × LiveStrategyState)
  textModels : List (String × CodeblockTextModels)
deriving Repr

/-- Synchronous part of `ChatEditSessionService.sendEditRequest`, up to and
including the `_pendingRequests.set` inside `_sendEditRequestAsync` (reached
without an intervening `await`): reject a request whose context does not have
exactly one entry before any side effect; otherwise set the context keys and
the active response, then reject if the session already has a pending edit
request, else register it.  `some ()` stands for the returned
`responseCompletePromise` wrapper. -/
def sendEditRequest (st : EditSessionState) (responseVM : ResponseVM)
    (request : EditRequest) : EditSessionState × Option Unit :=
  if request.context.length ≠ 1 then (st, none)
  else
    let st1 :=
      { st with
          activeResponse := some responseVM.id
          editResponseIdInProgress := responseVM.id
          editCodeblockInProgress := (request.context.headI).codeBlockIndex }
    if responseVM.sessionId ∈ st1.pendingRequests then (st1, none)
    else ({ st1 with pendingRequests := pendingSet st1.pendingRequests responseVM.sessionId },
          some ())

/-! ## Persistence: saveState and hasSessions -/

/-- Cap on persisted sessions (`maxPersistedSessions` in the source). -/
def maxPersistedSessions : Nat :=
  25

/-- Common projection of a live `ChatModel` or a persisted session as it
appears in the array built by `saveState` (the fields the sort, the
truncation and the claims inspect). -/
structure SessionSnapshot where
  sessionId : String
  requestCount : Nat
  creationDate : Option Nat
deriving DecidableEq, Repr

/-- Snapshot of a live session model taken by `saveState`. -/
def liveSnapshot (m : ChatModel) : SessionSnapshot :=
  { sessionId := m.sessionId
    requestCount := m.requests.length
    creationDate := m.creationDate }

/-- Snapshot of an already persisted session taken by `saveState`. -/
def persistedSnapshot (p : SerializedChat) : SessionSnapshot :=
  { sessionId := p.sessionId
    requestCount := p.requests.length
    creationDate := p.creationDate }

/-- The comparator `(a, b) => (b.creationDate ?? 0) - (a.creationDate ?? 0)`:
creation date descending, a missing date counting as 0. -/
def descByCreationDate (a b : SessionSnapshot) : Bool :=
  decide (b.creationDate.getD 0 ≤ a.creationDate.getD 0)

/-- The array built by `saveState` before sorting: live sessions whose
initial location is the panel and which have at least one request, followed
by the persisted sessions that are not currently loaded and have at least one
request. -/
def saveStateCandidates (st : ChatServiceState) : List SessionSnapshot :=
  (((st.sessionModels.filter
        (fun m => m.initialLocation == AgentLocation.panel)).filter
      (fun m => decide (0 < m.requests.length))).map liveSnapshot)
  ++ ((((st.persistedSessions.map (·.2)).filter
        (fun p => !sessionModelsHas st p.sessionId)).filter
      (fun p => p.requests.length != 0)).map persistedSnapshot)

/-- `ChatService.saveState`: sort the candidates by creation date descending
(JavaScript `Array.prototype.sort` is stable, as is `mergeSort`) and truncate
to the cap; the result is what is serialized to storage. -/
def saveState (st : ChatServiceState) : List SessionSnapshot :=
  ((saveStateCandidates st).mergeSort descByCreationDate).take maxPersistedSessions

/-- `Object.values(this._persistedSessions)`. -/
def objectValues (m : List (String × SerializedChat)) : List SerializedChat :=
  m.map (·.2)

/-- `ChatService.hasSessions`: `!!Object.values(this._persistedSessions)`. -/
def hasSessions (st : ChatServiceState) : Bool :=
  jsObjectTruthy (objectValues st.persistedSessions)

/-! ## Edit reachability (for the checkpoint round-trip) -/

/-- `EditReach V c m`: the live model `m` is obtained from the checkpoint
state `c` by a sequence of applied edit batches, each of which received a
fresh alternative version id greater than `V` (the editor's alternative
version counter only grows past the id recorded at first touch). -/
inductive EditReach (V : Nat) (c : TModel) : TModel → Prop
  | refl : EditReach V c c
  | step (m : TModel) (d : DocState) (hd : V < d.altId)
      (hreach : EditReach V c m) : EditReach V c (m.executeEdits d)

/-! ## Concrete states used by witnesses and counterexamples -/

/-- A ready panel session with no requests. -/
def exSession : ChatModel :=
  { sessionId := "s1"
    initialized := true
    requests := []
    initialLocation := .panel
    creationDate := some 1 }

/-- Service state holding `exSession`, with no pending request. -/
def exState : ChatServiceState :=
  { sessionModels := [exSession]
    pendingRequests := []
    persistedSessions := [] }

/-- Service state holding `exSession` with a pending request for it. -/
def exStatePending : ChatServiceState :=
  { sessionModels := [exSession]
    pendingRequests := ["s1"]
    persistedSessions := [] }

/-- Edit-session state with a pending edit request for session `s1`. -/
def exEditState : EditSessionState :=
  { activeResponse := none
    editResponseIdInProgress := ""
    editCodeblockInProgress := -1
    pendingRequests := ["s1"]
    editStrategies := []
    textModels := [] }

/-- A response view-model for session `s1`. -/
def exResponseVM : ResponseVM :=
  { id := "r1", sessionId := "s1" }

/-- An edit request with exactly one context entry. -/
def exEditRequest : EditRequest :=
  { context := [{ codeBlockIndex := 0 }] }

/-- An edit request with two context entries (ambiguous target). -/
def exEditRequestTwo : EditRequest :=
  { context := [{ codeBlockIndex := 0 }, { codeBlockIndex := 1 }] }

/-- A bare request model awaiting its response. -/
def exRequestModel : ChatRequestModel :=
  { id := "q1"
    message := "hello"
    response := []
    result := none
    isComplete := false
    isCanceled := false }

/-- An agent result whose error details carry the filtered marker. -/
def exFilteredResult : AgentResult :=
  { errorDetails :=
      some { message := "filtered"
             responseIsIncomplete := none
             responseIsFiltered := some true } }

/-- Checkpoint state of the witness document (alternative version id 5). -/
def exCheckpoint : TModel :=
  { current := { text := "a", altId := 5 }
    undoStack := []
    disposed := false }

/-- The witness document after one applied edit batch. -/
def exEdited : TModel :=
  exCheckpoint.executeEdits { text := "ab", altId := 6 }

/-- Strategy state over the edited witness document, checkpointed at 5. -/
def exStrategy : LiveStrategyState :=
  { models :=
      { textModel0 := "a"
        textModelN := exEdited
        textModelNAltVersion := 5
        textModelNSnapshotAltVersion := none }
    editCount := 1
    decorationLines := [1] }

/-- A fresh strategy state with no decorations. -/
def exFreshStrategy : LiveStrategyState :=
  { models :=
      { textModel0 := "a"
        textModelN := exCheckpoint
        textModelNAltVersion := 5
        textModelNSnapshotAltVersion := none }
    editCount := 0
    decorationLines := [] }

/-- A live session located in the editor (not the panel) with one request. -/
def exEditorSession : ChatModel :=
  { sessionId := "e1"
    initialized := true
    requests := [exRequestModel]
    initialLocation := .editor
    creationDate := some 7 }

/-- Service state whose only session is the editor-located `exEditorSession`:
it has a request, yet `saveState` serializes nothing. -/
def exEditorState : ChatServiceState :=
  { sessionModels := [exEditorSession]
    pendingRequests := []
    persistedSessions := [] }

/-- A well-formed raw persisted session. -/
def exGoodChat : RawChat :=
  { sessionId := "good"
    requests := some [{ response := RawResponseField.single "hi" }]
    creationDate := some 3 }

/-- A malformed raw persisted session: its `requests` field is not an
iterable array, so deserializing it throws. -/
def exBadChat : RawChat :=
  { sessionId := "bad"
    requests := none
    creationDate := none }

/-! ## Helper lemmas -/

/-- Trimming a string of whitespace characters yields the empty string. -/
theorem jsTrim_eq_empty (s : String) (h : s.toList.all isJsWhitespace = true) :
    jsTrim s = "" := by
  have h1 : List.dropWhile isJsWhitespace s.data = [] := by
    rw [List.dropWhile_eq_nil_iff]
    intro x hx
    exact (List.all_eq_true.mp h) x hx
  unfold jsTrim jsTrimList
  rw [show s.toList = s.data from rfl, h1]
  rfl

/-- Filtering out an absent key changes nothing. -/
theorem filter_bne_of_not_mem (p : List String) (s : String) (h : s ∉ p) :
    p.filter (fun x => x != s) = p := by
  apply List.filter_eq_self.mpr
  intro x hx
  simp only [bne_iff_ne, ne_eq]
  rintro rfl
  exact h hx

/-- Setting an absent key is consing it. -/
theorem pendingSet_of_not_mem (p : List String) (s : String) (h : s ∉ p) :
    pendingSet p s = s :: p := by
  simp [pendingSet, filter_bne_of_not_mem p s h]

/-- Deleting an absent key is a no-op reporting no removal. -/
theorem deleteAndDispose_of_not_mem (p : List String) (s : String) (h : s ∉ p) :
    deleteAndDispose p s = (p, false) := by
  simp [deleteAndDispose, h]

/-- Deleting a key present exactly at the head removes it and reports one
removal. -/
theorem deleteAndDispose_cons (p : List String) (s : String) (h : s ∉ p) :
    deleteAndDispose (s :: p) s = (p, true) := by
  simp [deleteAndDispose, filter_bne_of_not_mem p s h]

/-- `Map.set` keeps the key set duplicate free. -/
theorem pendingSet_nodup (p : List String) (s : String) (h : p.Nodup) :
    (pendingSet p s).Nodup := by
  simp only [pendingSet, List.nodup_cons]
  constructor
  · intro hmem
    rw [List.mem_filter] at hmem
    simp at hmem
  · exact h.filter _

/-- The pending-request key set stays duplicate free across `sendRequest`. -/
theorem sendRequest_pending_nodup (st : ChatServiceState) (s text : String)
    (h : st.pendingRequests.Nodup) :
    (sendRequest st s text).1.pendingRequests.Nodup := by
  unfold sendRequest
  split
  · exact h
  · split
    · exact h
    · split
      · exact h
      · exact pendingSet_nodup _ _ h

/-! ## Claims -/

/-- C3: an input text consisting only of whitespace (the empty string
included) is rejected by `sendRequest` with only a log line, for every
service state: the returned state is unchanged, so no request is added to
any session model and no pending operation is created. -/
theorem sendRequest_blank_is_noop (st : ChatServiceState) (sessionId text : String)
    (h : text.toList.all isJsWhitespace = true) :
    sendRequest st sessionId text = (st, SendOutcome.rejectedBlank) := by
  unfold sendRequest
  rw [jsTrim_eq_empty text h]
  simp

/-- Witness for C3 at the whitespace-only input of the spec scenario. -/
theorem sendRequest_blank_is_noop_witness :
    ("   ".toList.all isJsWhitespace = true) ∧
    sendRequest exState "s1" "   " = (exState, SendOutcome.rejectedBlank) :=
  ⟨by decide, sendRequest_blank_is_noop exState "s1" "   " (by decide)⟩

/-- C10: `hasSessions` returns `true` in every reachable state — its result
is the truthiness of the `Object.values` array, which is an object and hence
truthy even when the persisted-sessions table is empty, so the result never
depends on whether any session exists. -/
theorem hasSessions_always_true (st : ChatServiceState) :
    hasSessions st = true :=
  rfl

/-- C9: an edit request whose context list does not have exactly one element
is rejected by `sendEditRequest` before any side effect: the state comes back
unchanged — no pending edit request, no strategy, no text-model snapshot —
and the result is `undefined`. -/
theorem sendEditRequest_ambiguous_rejected (st : EditSessionState)
    (vm : ResponseVM) (req : EditRequest) (h : req.context.length ≠ 1) :
    sendEditRequest st vm req = (st, none) := by
  unfold sendEditRequest
  simp [h]

/-- Witness for C9 at a two-target edit request. -/
theorem sendEditRequest_ambiguous_rejected_witness :
    (exEditRequestTwo.context.length ≠ 1) ∧
    sendEditRequest exEditState exResponseVM exEditRequestTwo = (exEditState, none) :=
  ⟨by decide,
   sendEditRequest_ambiguous_rejected exEditState exResponseVM exEditRequestTwo (by decide)⟩

/-- C2: for a send that created the pending entry (the session was not
pending before), the entry is removed exactly once by the time the internal
promise has settled and any cancellation has run, whatever the agent outcome
(resolution, rejection) and whether `cancelCurrentRequestForSession` ran
before or after the settling `finally`: the final key set equals the original
one, the session is no longer pending, and exactly one actual removal
happened. -/
theorem pending_removed_exactly_once (p0 : List String) (s : String)
    (c : CancelTiming) (outcome : AgentOutcome) (h : s ∉ p0) :
    (sendLifecycle p0 s c outcome).1 = p0 ∧
    (sendLifecycle p0 s c outcome).2 = 1 ∧
    s ∉ (sendLifecycle p0 s c outcome).1 := by
  cases c <;>
    simp [sendLifecycle, pendingSet_of_not_mem p0 s h,
      deleteAndDispose_cons p0 s h, deleteAndDispose_of_not_mem p0 s h, h]

/-- Witness for C2: a cancelled send whose agent promise rejects. -/
theorem pending_removed_exactly_once_witness :
    ("s1" ∉ ([] : List String)) ∧
    (sendLifecycle [] "s1" CancelTiming.beforeSettle (AgentOutcome.throws "boom")).1 = [] ∧
    (sendLifecycle [] "s1" CancelTiming.beforeSettle (AgentOutcome.throws "boom")).2 = 1 :=
  ⟨by decide,
   (pending_removed_exactly_once [] "s1" .beforeSettle (.throws "boom") (by decide)).1,
   (pending_removed_exactly_once [] "s1" .beforeSettle (.throws "boom") (by decide)).2.1⟩

/-- C1: per session at most one pending operation exists at any instant, and
a second send while one is active is rejected without creating anything.
Conjunct one: a second `sendRequest` to a session with a pending operation
returns the state unchanged (no new request).  Conjunct two: `sendRequest`
keeps the pending table duplicate free, so each session has at most one
entry.  Conjunct three: `sendEditRequest` enforces the same rule — with a
pending edit request for the session it returns `undefined` and leaves the
pending table, the strategy table and the text-model table unchanged. -/
theorem at_most_one_in_flight
    (st : ChatServiceState) (s text : String) (m : ChatModel)
    (hblank : jsTrim text ≠ "") (hm : lookupSession st s = some m)
    (hp : s ∈ st.pendingRequests)
    (st2 : ChatServiceState) (s2 text2 : String)
    (hnd : st2.pendingRequests.Nodup)
    (est : EditSessionState) (vm : ResponseVM) (req : EditRequest)
    (hctx : req.context.length = 1) (hep : vm.sessionId ∈ est.pendingRequests) :
    sendRequest st s text = (st, SendOutcome.rejectedPending) ∧
    ((sendRequest st2 s2 text2).1.pendingRequests.Nodup ∧
      ∀ k, (sendRequest st2 s2 text2).1.pendingRequests.count k ≤ 1) ∧
    ((sendEditRequest est vm req).2 = none ∧
      (sendEditRequest est vm req).1.pendingRequests = est.pendingRequests ∧
      (sendEditRequest est vm req).1.editStrategies = est.editStrategies ∧
      (sendEditRequest est vm req).1.textModels = est.textModels) := by
  refine ⟨?_, ⟨sendRequest_pending_nodup st2 s2 text2 hnd, ?_⟩, ?_⟩
  · simp [sendRequest, hm, hblank, hp]
  · exact List.nodup_iff_count_le_one.mp (sendRequest_pending_nodup st2 s2 text2 hnd)
  · unfold sendEditRequest
    simp [hctx, hep]

/-- Witness for C1: the session `s1` has a pending chat request and a pending
edit request; both kinds of second send are rejected without effect. -/
theorem at_most_one_in_flight_witness :
    (jsTrim "hello" ≠ "" ∧ lookupSession exStatePending "s1" = some exSession ∧
      "s1" ∈ exStatePending.pendingRequests ∧ exEditRequest.context.length = 1 ∧
      "s1" ∈ exEditState.pendingRequests) ∧
    sendRequest exStatePending "s1" "hello" = (exStatePending, SendOutcome.rejectedPending) ∧
    (sendEditRequest exEditState exResponseVM exEditRequest).2 = none ∧
    (sendEditRequest exEditState exResponseVM exEditRequest).1.pendingRequests =
      exEditState.pendingRequests :=
  ⟨⟨by decide, by decide, by decide, by decide, by decide⟩,
   (at_most_one_in_flight exStatePending "s1" "hello" exSession (by decide) (by decide)
      (by decide) exState "s1" "x" (by decide) exEditState exResponseVM exEditRequest
      (by decide) (by decide)).1,
   ((at_most_one_in_flight exStatePending "s1" "hello" exSession (by decide) (by decide)
      (by decide) exState "s1" "x" (by decide) exEditState exResponseVM exEditRequest
      (by decide) (by decide)).2.2).1,
   ((at_most_one_in_flight exStatePending "s1" "hello" exSession (by decide) (by decide)
      (by decide) exState "s1" "x" (by decide) exEditState exResponseVM exEditRequest
      (by decide) (by decide)).2.2).2.1⟩

/-- C6: on agent completion of a send the result classification is
`filtered` when the error details carry the filtered marker, otherwise
`errorWithOutput` when error details are present and at least one progress
fragment arrived, otherwise `error` when error details are present,
otherwise `success`; the raw result is attached to the response and the
response is marked complete. -/
theorem settle_classifies_and_completes (req : ChatRequestModel)
    (r : AgentResult) (g : Bool) :
    (∀ ed, r.errorDetails = some ed → jsTruthyOptBool ed.responseIsFiltered = true →
      (settleOutcome req (some r) g).2 = ResultKind.filtered) ∧
    (∀ ed, r.errorDetails = some ed → jsTruthyOptBool ed.responseIsFiltered = false →
      g = true → (settleOutcome req (some r) g).2 = ResultKind.errorWithOutput) ∧
    (∀ ed, r.errorDetails = some ed → jsTruthyOptBool ed.responseIsFiltered = false →
      g = false → (settleOutcome req (some r) g).2 = ResultKind.error) ∧
    (r.errorDetails = none → (settleOutcome req (some r) g).2 = ResultKind.success) ∧
    (settleOutcome req (some r) g).1.isComplete = true ∧
    (settleOutcome req (some r) g).1.result = some r := by
  refine ⟨?_, ?_, ?_, ?_, rfl, rfl⟩ <;> intros <;> simp_all [settleOutcome, classifyResult]

/-- Witness for C6: a filtered result is classified `filtered` and the
response is completed. -/
theorem settle_classifies_and_completes_witness :
    (settleOutcome exRequestModel (some exFilteredResult) true).2 = ResultKind.filtered ∧
    (settleOutcome exRequestModel (some exFilteredResult) true).1.isComplete = true :=
  ⟨(settle_classifies_and_completes exRequestModel exFilteredResult true).1
      { message := "filtered", responseIsIncomplete := none, responseIsFiltered := some true }
      rfl rfl,
   (settle_classifies_and_completes exRequestModel exFilteredResult true).2.2.2.2.1⟩

/-- `undoModelUntil` does nothing when the document is already at or below
the target version. -/
theorem undoModelUntil_of_not_lt (m : TModel) (t : Nat)
    (h : ¬ t < m.getAlternativeVersionId) : undoModelUntil m t = m := by
  rw [undoModelUntil]
  simp [h]

/-- Applying edit batches never changes the disposal flag. -/
theorem editReach_disposed (V : Nat) (c m : TModel) (h : EditReach V c m) :
    m.disposed = c.disposed := by
  induction h with
  | refl => rfl
  | step m d hd hr ih => exact ih

/-- Rolling back a document reached from checkpoint `c` by edits whose
alternative version ids all exceed `c`'s returns exactly `c`: every edit
pushed the previous state, so the undo loop pops them one by one and stops
at the checkpoint. -/
theorem undoModelUntil_editReach (V : Nat) (c m : TModel) (h : EditReach V c m)
    (hc : ¬ V < c.getAlternativeVersionId) : undoModelUntil m V = c := by
  induction h with
  | refl => exact undoModelUntil_of_not_lt c V hc
  | step m d hd hr ih =>
      rw [undoModelUntil]
      have hcond : V < (m.executeEdits d).getAlternativeVersionId ∧
          (m.executeEdits d).canUndo = true := by
        constructor
        · exact hd
        · simp [TModel.executeEdits, TModel.canUndo]
      rw [dif_pos hcond]
      have hundo : (m.executeEdits d).undo = m := by
        simp [TModel.executeEdits, TModel.undo]
      rw [hundo]
      exact ih

/-- Unfolding of `LiveStrategy.cancel` on a live (undisposed) document with
no snapshot version: it rolls back to the version recorded at first touch
and clears the decorations, leaving the recorded versions in place. -/
theorem cancel_unfold (st : LiveStrategyState)
    (hdisp : st.models.textModelN.disposed = false)
    (hsnap : st.models.textModelNSnapshotAltVersion = none) :
    (LiveStrategy.cancel st).models.textModelN =
      undoModelUntil st.models.textModelN st.models.textModelNAltVersion ∧
    (LiveStrategy.cancel st).models.textModelNAltVersion =
      st.models.textModelNAltVersion ∧
    (LiveStrategy.cancel st).models.textModelNSnapshotAltVersion = none ∧
    (LiveStrategy.cancel st).decorationLines = [] := by
  unfold LiveStrategy.cancel
  simp [hdisp, hsnap]

/-- C4: for a document whose alternative version id was `V` at the edit
session's first touch (checkpoint state `c`), after any sequence of applied
edit batches `cancel` rolls back by invoking `undo` exactly while the
alternative version id exceeds `V` and undo is available (that loop is
`undoModelUntil`), ending exactly at the checkpoint: the final alternative
version id is `≤ V`, and a second `cancel` — a further rollback invocation —
changes nothing. -/
theorem cancel_round_trip (V : Nat) (c : TModel) (st : LiveStrategyState)
    (hreach : EditReach V c st.models.textModelN)
    (hcv : c.getAlternativeVersionId = V)
    (hver : st.models.textModelNAltVersion = V)
    (hsnap : st.models.textModelNSnapshotAltVersion = none)
    (hdisp : st.models.textModelN.disposed = false) :
    (LiveStrategy.cancel st).models.textModelN = c ∧
    (LiveStrategy.cancel st).models.textModelN.getAlternativeVersionId ≤ V ∧
    (LiveStrategy.cancel (LiveStrategy.cancel st)).models.textModelN = c := by
  have hc : ¬ V < c.getAlternativeVersionId := by omega
  obtain ⟨h1, h2, h3, _⟩ := cancel_unfold st hdisp hsnap
  have hroll : (LiveStrategy.cancel st).models.textModelN = c := by
    rw [h1, hver]
    exact undoModelUntil_editReach V c _ hreach hc
  refine ⟨hroll, by rw [hroll, hcv], ?_⟩
  have hdisp2 : (LiveStrategy.cancel st).models.textModelN.disposed = false := by
    rw [hroll]
    rw [editReach_disposed V c _ hreach] at hdisp
    exact hdisp
  obtain ⟨g1, _, _, _⟩ := cancel_unfold (LiveStrategy.cancel st) hdisp2 h3
  rw [g1, hroll, h2, hver]
  exact undoModelUntil_of_not_lt c V (by omega)

/-- Witness for C4: one edit batch on a document checkpointed at version 5;
cancel returns it to the checkpoint and a second cancel changes nothing. -/
theorem cancel_round_trip_witness :
    (exStrategy.models.textModelNAltVersion = 5 ∧
      exCheckpoint.getAlternativeVersionId = 5 ∧
      exStrategy.models.textModelN.disposed = false) ∧
    (LiveStrategy.cancel exStrategy).models.textModelN = exCheckpoint ∧
    (LiveStrategy.cancel exStrategy).models.textModelN.getAlternativeVersionId ≤ 5 ∧
    (LiveStrategy.cancel (LiveStrategy.cancel exStrategy)).models.textModelN = exCheckpoint :=
  ⟨⟨rfl, rfl, rfl⟩,
   cancel_round_trip 5 exCheckpoint exStrategy
     (EditReach.step exCheckpoint { text := "ab", altId := 6 } (by decide) EditReach.refl)
     rfl rfl rfl rfl⟩

/-- Membership in the line enumeration of one touched range. -/
theorem mem_linesOfRange (r : LRange) (x : Nat) :
    x ∈ linesOfRange r ↔ r.startLine ≤ x ∧ x ≤ r.endLine := by
  simp only [linesOfRange, List.mem_map, List.mem_range]
  constructor
  · rintro ⟨i, hi, rfl⟩
    omega
  · rintro ⟨h1, h2⟩
    exact ⟨x - r.startLine, by omega, by omega⟩

/-- `Set.add` keeps the collection duplicate free. -/
theorem jsSetAdd_nodup (s : List Nat) (x : Nat) (h : s.Nodup) :
    (jsSetAdd s x).Nodup := by
  unfold jsSetAdd
  split
  · exact h
  · next hx =>
      rw [List.nodup_append]
      refine ⟨h, List.nodup_singleton x, ?_⟩
      intro a ha hb
      rw [List.mem_singleton] at hb
      subst hb
      exact hx ha

/-- Membership after a `Set.add`. -/
theorem mem_jsSetAdd (s : List Nat) (x y : Nat) :
    y ∈ jsSetAdd s x ↔ y ∈ s ∨ y = x := by
  unfold jsSetAdd
  split
  · next hx =>
      constructor
      · exact Or.inl
      · rintro (h | rfl)
        · exact h
        · exact hx
  · simp

/-- Folding `Set.add` keeps the collection duplicate free. -/
theorem foldl_jsSetAdd_nodup (xs s : List Nat) (h : s.Nodup) :
    (xs.foldl jsSetAdd s).Nodup := by
  induction xs generalizing s with
  | nil => exact h
  | cons x xs ih => exact ih (jsSetAdd s x) (jsSetAdd_nodup s x h)

/-- Membership after folding `Set.add`. -/
theorem mem_foldl_jsSetAdd (xs s : List Nat) (y : Nat) :
    y ∈ xs.foldl jsSetAdd s ↔ y ∈ s ∨ y ∈ xs := by
  induction xs generalizing s with
  | nil => simp
  | cons x xs ih =>
      rw [List.foldl_cons, ih, mem_jsSetAdd]
      simp only [List.mem_cons]
      tauto

/-- The collected line set of a batch stays duplicate free from any
duplicate-free accumulator. -/
theorem collectFrom_nodup (edits : List LRange) (acc : List Nat) (h : acc.Nodup) :
    (edits.foldl (fun s r => (linesOfRange r).foldl jsSetAdd s) acc).Nodup := by
  induction edits generalizing acc with
  | nil => exact h
  | cons r rs ih => exact ih _ (foldl_jsSetAdd_nodup _ _ h)

/-- Membership in the collected line set built from an accumulator. -/
theorem mem_collectFrom (edits : List LRange) (acc : List Nat) (y : Nat) :
    y ∈ edits.foldl (fun s r => (linesOfRange r).foldl jsSetAdd s) acc ↔
      y ∈ acc ∨ ∃ r ∈ edits, y ∈ linesOfRange r := by
  induction edits generalizing acc with
  | nil => simp
  | cons r rs ih =>
      rw [List.foldl_cons, ih, mem_foldl_jsSetAdd]
      simp only [List.mem_cons]
      constructor
      · rintro ((h | h) | ⟨r', hr', hy⟩)
        · exact Or.inl h
        · exact Or.inr ⟨r, Or.inl rfl, h⟩
        · exact Or.inr ⟨r', Or.inr hr', hy⟩
      · rintro (h | ⟨r', (rfl | hr'), hy⟩)
        · exact Or.inl (Or.inl h)
        · exact Or.inl (Or.inr hy)
        · exact Or.inr ⟨r', hr', hy⟩

/-- The `newLines` set of one batch is duplicate free. -/
theorem collectEditLines_nodup (edits : List LRange) :
    (collectEditLines edits).Nodup :=
  collectFrom_nodup edits [] List.nodup_nil

/-- A line is collected for a batch exactly when some reported range of the
batch touches it. -/
theorem mem_collectEditLines (edits : List LRange) (y : Nat) :
    y ∈ collectEditLines edits ↔ ∃ r ∈ edits, r.startLine ≤ y ∧ y ≤ r.endLine := by
  unfold collectEditLines
  rw [mem_collectFrom]
  simp [mem_linesOfRange]

/-- Appending a batch's decoration delta keeps one decoration per line. -/
theorem appendEditDecorations_nodup (decos : List Nat) (edits : List LRange)
    (h : decos.Nodup) : (appendEditDecorations decos edits).Nodup := by
  unfold appendEditDecorations deltaNewLines
  rw [List.nodup_append]
  refine ⟨h, (collectEditLines_nodup edits).filter _, ?_⟩
  intro a ha hb
  rw [List.mem_filter] at hb
  have hnot : a ∉ decos := by simpa using hb.2
  exact hnot ha

/-- After appending a batch, the decorated lines are exactly the old ones
together with the lines touched by the batch. -/
theorem mem_appendEditDecorations (decos : List Nat) (edits : List LRange) (y : Nat) :
    y ∈ appendEditDecorations decos edits ↔
      y ∈ decos ∨ ∃ r ∈ edits, r.startLine ≤ y ∧ y ≤ r.endLine := by
  unfold appendEditDecorations deltaNewLines
  rw [List.mem_append, List.mem_filter]
  by_cases hy : y ∈ decos <;> simp [hy, mem_collectEditLines]

/-- C5: starting from a strategy with no decorations, applying two edit
batches — overlapping line ranges included — produces a decoration set that
is exactly the union of the touched lines, with exactly one decoration per
touched line: the set is duplicate free and a line already covered is never
decorated again. -/
theorem decoration_delta_union (st : LiveStrategyState)
    (h0 : st.decorationLines = []) (b1 b2 : List LRange) :
    (makeChangesDecorations (makeChangesDecorations st b1) b2).decorationLines.Nodup ∧
    ∀ x, x ∈ (makeChangesDecorations (makeChangesDecorations st b1) b2).decorationLines ↔
      ((∃ r ∈ b1, r.startLine ≤ x ∧ x ≤ r.endLine) ∨
        (∃ r ∈ b2, r.startLine ≤ x ∧ x ≤ r.endLine)) := by
  have hlines : (makeChangesDecorations (makeChangesDecorations st b1) b2).decorationLines =
      appendEditDecorations (appendEditDecorations [] b1) b2 := by
    simp [makeChangesDecorations, h0]
  rw [hlines]
  constructor
  · exact appendEditDecorations_nodup _ b2
      (appendEditDecorations_nodup [] b1 List.nodup_nil)
  · intro x
    rw [mem_appendEditDecorations, mem_appendEditDecorations]
    simp

/-- Witness for C5 at two overlapping batches on a fresh strategy. -/
theorem decoration_delta_union_witness :
    (exFreshStrategy.decorationLines = []) ∧
    (makeChangesDecorations (makeChangesDecorations exFreshStrategy
        [{ startLine := 1, endLine := 3 }])
      [{ startLine := 2, endLine := 4 }]).decorationLines.Nodup :=
  ⟨rfl,
   (decoration_delta_union exFreshStrategy rfl
      [{ startLine := 1, endLine := 3 }] [{ startLine := 2, endLine := 4 }]).1⟩

/-- The descending creation-date comparator is transitive. -/
theorem descByCreationDate_trans : ∀ (a b c : SessionSnapshot),
    descByCreationDate a b → descByCreationDate b c → descByCreationDate a c := by
  intro a b c hab hbc
  simp only [descByCreationDate, decide_eq_true_eq] at *
  omega

/-- The descending creation-date comparator is total. -/
theorem descByCreationDate_total : ∀ (a b : SessionSnapshot),
    descByCreationDate a b || descByCreationDate b a := by
  intro a b
  simp only [descByCreationDate, Bool.or_eq_true, decide_eq_true_eq]
  omega

/-- Every candidate picked up by `saveState` has at least one request. -/
theorem saveStateCandidates_requestCount (st : ChatServiceState)
    (x : SessionSnapshot) (hx : x ∈ saveStateCandidates st) : x.requestCount ≠ 0 := by
  unfold saveStateCandidates at hx
  rw [List.mem_append] at hx
  rcases hx with hx | hx <;> rw [List.mem_map] at hx <;> obtain ⟨a, ha, rfl⟩ := hx
  · rw [List.mem_filter] at ha
    have h2 := ha.2
    simp only [decide_eq_true_eq] at h2
    simp only [liveSnapshot, ne_eq]
    omega
  · rw [List.mem_filter] at ha
    have h2 := ha.2
    simp only [bne_iff_ne, ne_eq] at h2
    simpa [persistedSnapshot] using h2

/-- C7 counterexample: the state `exEditorState` holds one live session with
a request whose initial location is the editor, not the panel; `saveState`
serializes nothing, so it is false that exactly the sessions with at least
one request are serialized. -/
theorem saveState_misses_nonpanel_session :
    exEditorSession ∈ exEditorState.sessionModels ∧
    0 < exEditorSession.requests.length ∧
    saveState exEditorState = [] := by
  refine ⟨List.mem_singleton.mpr rfl, by decide, ?_⟩
  have hc : saveStateCandidates exEditorState = [] := by decide
  unfold saveState
  rw [hc]
  simp [List.mergeSort_nil]

/-- C7 amended: the sessions serialized on the before-shutdown hook are
exactly the candidates — panel-located live sessions with at least one
request plus not-currently-loaded persisted sessions with at least one
request — sorted by creation date descending (a missing date counts as 0)
and truncated to the cap of 25, so only the newest cap-many candidates are
written: the output is sorted, holds only candidates (all with at least one
request), is everything when at most cap-many candidates exist, is exactly
cap long otherwise, and every serialized entry is at least as new as every
candidate left out. -/
theorem saveState_amended (st : ChatServiceState) :
    List.Pairwise (fun a b => descByCreationDate a b = true) (saveState st) ∧
    (saveState st).length ≤ maxPersistedSessions ∧
    (∀ x ∈ saveState st, x ∈ saveStateCandidates st ∧ x.requestCount ≠ 0) ∧
    ((saveStateCandidates st).length ≤ maxPersistedSessions →
      ∀ x, x ∈ saveState st ↔ x ∈ saveStateCandidates st) ∧
    (maxPersistedSessions ≤ (saveStateCandidates st).length →
      (saveState st).length = maxPersistedSessions) ∧
    (∀ x ∈ saveState st, ∀ y ∈ saveStateCandidates st, y ∉ saveState st →
      y.creationDate.getD 0 ≤ x.creationDate.getD 0) := by
  have hsorted := List.sorted_mergeSort descByCreationDate_trans
    descByCreationDate_total (saveStateCandidates st)
  have hperm := List.mergeSort_perm (saveStateCandidates st) descByCreationDate
  have hlen : ((saveStateCandidates st).mergeSort descByCreationDate).length =
      (saveStateCandidates st).length := hperm.length_eq
  refine ⟨?_, ?_, ?_, ?_, ?_, ?_⟩
  · exact List.Pairwise.sublist (List.take_sublist _ _) hsorted
  · have := List.length_take maxPersistedSessions
      ((saveStateCandidates st).mergeSort descByCreationDate)
    unfold saveState
    omega
  · intro x hx
    have hx' : x ∈ (saveStateCandidates st).mergeSort descByCreationDate :=
      (List.take_sublist _ _).subset hx
    have hmem := hperm.mem_iff.mp hx'
    exact ⟨hmem, saveStateCandidates_requestCount st x hmem⟩
  · intro hle x
    unfold saveState
    rw [List.take_of_length_le (by omega)]
    exact hperm.mem_iff
  · intro hge
    have := List.length_take maxPersistedSessions
      ((saveStateCandidates st).mergeSort descByCreationDate)
    unfold saveState
    omega
  · intro x hx y hy hyn
    have hy' : y ∈ (saveStateCandidates st).mergeSort descByCreationDate :=
      hperm.mem_iff.mpr hy
    rw [← List.take_append_drop maxPersistedSessions
      ((saveStateCandidates st).mergeSort descByCreationDate), List.mem_append] at hy'
    have hyd : y ∈ ((saveStateCandidates st).mergeSort descByCreationDate).drop
        maxPersistedSessions := by
      rcases hy' with hy' | hy'
      · exact absurd hy' hyn
      · exact hy'
    have hsplit := hsorted
    rw [← List.take_append_drop maxPersistedSessions
      ((saveStateCandidates st).mergeSort descByCreationDate),
      List.pairwise_append] at hsplit
    have := hsplit.2.2 x hx y hyd
    simpa [descByCreationDate] using this

/-- Witness for C7 amended at the editor-located state: the cap holds and
the membership characterization evaluates at a concrete snapshot. -/
theorem saveState_amended_witness :
    (saveStateCandidates exEditorState).length ≤ maxPersistedSessions ∧
    (saveState exEditorState).length ≤ maxPersistedSessions ∧
    (liveSnapshot exEditorSession ∈ saveState exEditorState ↔
      liveSnapshot exEditorSession ∈ saveStateCandidates exEditorState) :=
  ⟨by decide,
   (saveState_amended exEditorState).2.1,
   (saveState_amended exEditorState).2.2.2.1 (by decide) (liveSnapshot exEditorSession)⟩

/-- Keys already present in the accumulator survive the deserialization
reduce: `acc[id] = session` never deletes a different key. -/
theorem deserialize_foldl_keys_mono (xs : List RawChat)
    (acc : List (String × SerializedChat)) (k : String)
    (h : k ∈ acc.map Prod.fst) :
    k ∈ ((xs.foldl
      (fun acc c =>
        match c.requests with
        | some reqs => mapSet acc c.sessionId (normalizeChat c reqs)
        | none => acc)
      acc).map Prod.fst) := by
  induction xs generalizing acc with
  | nil => exact h
  | cons x xs ih =>
      rw [List.foldl_cons]
      apply ih
      cases hx : x.requests with
      | none => exact h
      | some reqs =>
          simp only [mapSet, List.map_cons, List.mem_cons]
          by_cases hk : k = x.sessionId
          · exact Or.inl hk
          · right
            rw [List.mem_map] at h ⊢
            obtain ⟨p, hp, rfl⟩ := h
            exact ⟨p, List.mem_filter.mpr ⟨hp, by simpa using hk⟩, rfl⟩

/-- When every raw session is well formed, every session's id ends up as a
key of the deserialized table. -/
theorem deserialize_foldl_keys_of_mem (xs : List RawChat)
    (acc : List (String × SerializedChat))
    (hwf : ∀ c ∈ xs, c.requests.isSome = true) (c : RawChat) (hc : c ∈ xs) :
    c.sessionId ∈ ((xs.foldl
      (fun acc c =>
        match c.requests with
        | some reqs => mapSet acc c.sessionId (normalizeChat c reqs)
        | none => acc)
      acc).map Prod.fst) := by
  induction xs generalizing acc with
  | nil => cases hc
  | cons x xs ih =>
      rw [List.foldl_cons]
      rcases List.mem_cons.mp hc with rfl | hc'
      · have hx : c.requests.isSome = true := hwf c (List.mem_cons_self c xs)
        cases hreq : c.requests with
        | none => rw [hreq] at hx; cases hx
        | some reqs =>
            apply deserialize_foldl_keys_mono
            simp [mapSet]
      · exact ih _ (fun d hd => hwf d (List.mem_cons_of_mem x hd)) hc'

/-- C8 counterexample: the persisted snapshot `[exGoodChat, exBadChat]`
contains one well-formed and one malformed session; `deserializeChats`
returns the empty table, so the well-formed session is not restored — the
whole snapshot is dropped, not just the malformed session. -/
theorem deserialize_drops_wellformed :
    exGoodChat.requests.isSome = true ∧
    exBadChat.requests = none ∧
    deserializeChats (PersistedInput.sessions [exGoodChat, exBadChat]) = [] := by
  refine ⟨rfl, rfl, by decide⟩

/-- C8 amended: deserialization of persisted session data never throws out
of `ChatService` construction — every malformed input (unparsable blob,
non-array value, or any session whose requests cannot be iterated) is caught
and yields the empty table.  The catch wraps the whole reduce, so one
malformed session drops the entire snapshot including the well-formed
sessions; only when every persisted session is well formed is every session
restored. -/
theorem deserializeChats_amended (xs : List RawChat) :
    deserializeChats PersistedInput.parseFailure = [] ∧
    deserializeChats PersistedInput.nonArray = [] ∧
    ((∃ c ∈ xs, c.requests = none) →
      deserializeChats (PersistedInput.sessions xs) = []) ∧
    ((∀ c ∈ xs, c.requests.isSome = true) →
      ∀ c ∈ xs, c.sessionId ∈ (deserializeChats (PersistedInput.sessions xs)).map Prod.fst) := by
  refine ⟨rfl, rfl, ?_, ?_⟩
  · rintro ⟨c, hc, hnone⟩
    simp only [deserializeChats]
    rw [if_neg]
    intro hall
    have := List.all_eq_true.mp hall c hc
    rw [hnone] at this
    cases this
  · intro hwf c hc
    simp only [deserializeChats]
    rw [if_pos (List.all_eq_true.mpr hwf)]
    exact deserialize_foldl_keys_of_mem xs [] hwf c hc

/-- Witness for C8 amended: with the well-formed snapshot `[exGoodChat]` the
session is restored, and the mixed snapshot is dropped whole. -/
theorem deserializeChats_amended_witness :
    (exGoodChat.requests = none ∨ exGoodChat.requests.isSome = true) ∧
    "good" ∈ (deserializeChats (PersistedInput.sessions [exGoodChat])).map Prod.fst ∧
    deserializeChats (PersistedInput.sessions [exBadChat]) = [] :=
  ⟨Or.inr rfl,
   (deserializeChats_amended [exGoodChat]).2.2.2
     (by intro c hc; rw [List.mem_singleton.mp hc]; rfl) exGoodChat (List.mem_singleton.mpr rfl),
   (deserializeChats_amended [exBadChat]).2.2.1 ⟨exBadChat, List.mem_singleton.mpr rfl, rfl⟩⟩
